import Mathlib

/-!
Shallow embedding of the release-management / update-acquisition core of the
code-push server (TypeScript, Cloudflare Workers).  Definitions are translated
from the source files:

  - src/apps/server/src/utils/rollout.ts           (rolloutStrategy)
  - src/apps/server/src/utils/version.ts           (normalizeVersion)
  - src/apps/server/src/handlers/updateCheck.ts    (updateCheckHandler)
  - src/apps/server/src/utils/metrics.ts           (MetricsManager)
  - src/apps/server/src/routes/acquisition.ts      (deploymentReport route)
  - src/apps/server/src/storage/d1.ts              (commitPackage)
  - src/apps/server/src/storage/blob.ts            (moveBlob, getBlobUrl)
  - src/unnamed/part_010                           (promote, rollback, release
                                                    update route handlers)

JavaScript numbers are modelled as unbounded integers (exact for the integer
values reached by the code below, which stay far under 2 to the 53rd for the
inputs considered); 32-bit coercion points in the source (the shift operator)
are made explicit with toInt32.  Truthiness of optional strings and booleans
is modelled explicitly.  External collaborators (the compare-versions npm
library) are abstracted as function parameters.
-/

/-- JavaScript ToInt32: wrap an integer to the signed 32-bit range. -/
def toInt32 (x : Int) : Int :=
  (x + 2147483648) % 4294967296 - 2147483648

/-- Truthiness of a possibly-undefined JavaScript string: undefined and the
empty string are falsy. -/
def optTruthy : Option String → Bool
  | none => false
  | some s => !(s == "")

/-- JavaScript strict equality between a string and a possibly-undefined
string (comparison with undefined is always false). -/
def strictEqOpt (h : String) : Option String → Bool
  | none => false
  | some s => h == s

/-- Truthiness of a possibly-undefined JavaScript boolean. -/
def boolTruthy : Option Bool → Bool
  | some true => true
  | _ => false

/-! ## utils/rollout.ts -/

/-- charCodeAt(0) applied to one element of Array.from(s): for characters in
the basic multilingual plane this is the code point, for astral characters it
is the high surrogate. -/
def charCode (c : Char) : Int :=
  if c.toNat < 65536 then (c.toNat : Int) else 55296 + ((c.toNat - 65536) / 1024 : Nat)

/-- One step of the reduce in rolloutStrategy: (hash << 5) - hash + code.
Only the shift coerces to signed 32 bits; the subtraction and addition are
exact, as in JavaScript. -/
def jsStep (h c : Int) : Int :=
  toInt32 (32 * h) - h + c

/-- The hash accumulated by rolloutStrategy over a list of char codes. -/
def jsHashList (l : List Int) : Int :=
  l.foldl jsStep 0

/-- Char codes of a string, in order. -/
def strCodes (s : String) : List Int :=
  s.data.map charCode

/-- hashCode computed inside rolloutStrategy (rollout.ts lines 8-10). -/
def hashCode (s : String) : Int :=
  jsHashList (strCodes s)

/-- rolloutStrategy from rollout.ts: identifier = clientId + packageHash,
normalizedHash = Math.abs(hashCode % 100), return normalizedHash < p.
JavaScript % is the truncated remainder (Int.tmod). -/
def rolloutStrategy (clientId : String) (rolloutPercentage : Int) (packageHash : String) : Bool :=
  let identifier := clientId ++ packageHash
  let normalizedHash : Int := (((hashCode identifier).tmod 100).natAbs : Int)
  normalizedHash < rolloutPercentage

/-- One step of the Java-string-hash recurrence with every arithmetic step
wrapped to signed 32 bits.  Follows the wording of the spec (section 4.9);
used only to compare the source hash against the claimed reference. -/
def refStep (h c : Int) : Int :=
  toInt32 (toInt32 (32 * h) - h + c)

/-- The fully wrapped reference hash over a list of char codes. -/
def refHashList (l : List Int) : Int :=
  l.foldl refStep 0

/-- The fully wrapped reference hash of a string, per the spec wording. -/
def specRolloutHash (s : String) : Int :=
  refHashList (strCodes s)

/-- The reference rollout predicate claimed by the spec: bucket of the fully
wrapped signed-32-bit hash, compared against the percentage. -/
def specRolloutInRollout (clientId : String) (rolloutPercentage : Int) (packageHash : String) : Bool :=
  (((specRolloutHash (clientId ++ packageHash)).natAbs % 100 : Nat) : Int) < rolloutPercentage

/-! ## utils/version.ts -/

/-- Test of the regular expression matching only digits, at least one. -/
def isIntegerString (v : String) : Bool :=
  !v.data.isEmpty && v.data.all Char.isDigit

/-- Test of the regular expression: digits, dot, digits, then optionally a
plus or minus followed by anything. -/
def matchesMajorMinor (l : List Char) : Bool :=
  let d1 := l.takeWhile Char.isDigit
  let r1 := l.dropWhile Char.isDigit
  if d1.isEmpty then false
  else
    match r1 with
    | [] => false
    | c :: r2 =>
      if c = '.' then
        let d2 := r2.takeWhile Char.isDigit
        let r3 := r2.dropWhile Char.isDigit
        if d2.isEmpty then false
        else
          match r3 with
          | [] => true
          | c2 :: _ => c2 = '+' || c2 = '-'
      else false

/-- normalizeVersion from version.ts: a plain integer N becomes N.0.0; a
major.minor version, optionally with a tag introduced by plus or minus, gets
.0 spliced in before the tag; anything else is returned unchanged. -/
def normalizeVersion (version : String) : String :=
  if isIntegerString version then version ++ ".0.0"
  else if matchesMajorMinor version.data then
    match version.data.findIdx? (fun c => c == '+' || c == '-') with
    | none => version ++ ".0"
    | some i => String.mk (version.data.take i) ++ ".0" ++ String.mk (version.data.drop i)
  else version

/-! ## Data model (types/schemas Package, trimmed to the fields the embedded
operations read or write) -/

structure DiffInfo where
  url : String
  size : Int
deriving DecidableEq

structure Package where
  label : String
  appVersion : String
  packageHash : String
  isDisabled : Bool
  isMandatory : Bool
  rollout : Option Int
  size : Int
  blobUrl : String
  manifestBlobUrl : String := ""
  description : String
  diffPackageMap : List (String × DiffInfo) := []
  releaseMethod : String := "Upload"
  originalLabel : Option String := none
  originalDeployment : Option String := none
  uploadTime : Int := 0
deriving DecidableEq

structure UpdateCheckQuery where
  appVersion : String
  packageHash : Option String := none
  label : Option String := none
  clientUniqueId : Option String := none
  isCompanion : Bool := false
deriving DecidableEq

/-! ## handlers/updateCheck.ts -/

structure ScanState where
  foundRequest : Bool := false
  latestSatisfying : Option Package := none
  latestEnabled : Option Package := none
  makeMandatory : Bool := false
deriving DecidableEq

/-- The JavaScript pattern x ||= p on an optional value: keep x when already
set, otherwise take p. -/
def orSome (o : Option Package) (p : Package) : Option Package :=
  match o with
  | some x => some x
  | none => some p

/-- Update of foundRequestPackageInHistory for one history entry
(updateCheck.ts lines 57-61). -/
def matchesRequest (q : UpdateCheckQuery) (p : Package) : Bool :=
  (!optTruthy q.label && !optTruthy q.packageHash)
  || (optTruthy q.label && p.label == q.label.getD "")
  || (!optTruthy q.label && strictEqOpt p.packageHash q.packageHash)

/-- The backwards history walk of updateCheck.ts lines 53-91.  The list
argument is the history already reversed (newest first); sat abstracts the
satisfies function of the compare-versions library and sv is the normalized
client version. -/
def scanGo (sat : String → String → Bool) (q : UpdateCheckQuery) (sv : String) :
    List Package → ScanState → ScanState
  | [], s => s
  | p :: rest, s =>
    let found := s.foundRequest || matchesRequest q p
    if p.isDisabled then
      scanGo sat q sv rest { s with foundRequest := found }
    else
      let le := orSome s.latestEnabled p
      if !q.isCompanion && !(p.appVersion == "") && !(sat sv p.appVersion) then
        if sv.data.contains '-' then
          scanGo sat q sv rest
            { foundRequest := found, latestSatisfying := orSome s.latestSatisfying p,
              latestEnabled := le, makeMandatory := s.makeMandatory }
        else
          scanGo sat q sv rest
            { foundRequest := found, latestSatisfying := s.latestSatisfying,
              latestEnabled := le, makeMandatory := s.makeMandatory }
      else
        let ls := orSome s.latestSatisfying p
        if found then
          { foundRequest := found, latestSatisfying := ls, latestEnabled := le,
            makeMandatory := s.makeMandatory }
        else if p.isMandatory then
          { foundRequest := found, latestSatisfying := ls, latestEnabled := le,
            makeMandatory := true }
        else
          scanGo sat q sv rest
            { foundRequest := found, latestSatisfying := ls, latestEnabled := le,
              makeMandatory := s.makeMandatory }

structure UpdateInfo where
  isAvailable : Bool
  isMandatory : Bool
  appVersion : String
  shouldRunBinaryVersion : Option Bool := none
  updateAppVersion : Option Bool := none
  packageHash : Option String := none
  label : Option String := none
  packageSize : Option Int := none
  description : Option String := none
  downloadURL : Option String := none
deriving DecidableEq

/-- Response used for empty history, no enabled package, no satisfying
package, and as the base of the client-is-current branch. -/
def noUpdateResponse (av : String) : UpdateInfo :=
  { isAvailable := false, isMandatory := false, appVersion := av,
    shouldRunBinaryVersion := some true }

/-- Response of the rollout-exclusion branches (no shouldRunBinaryVersion). -/
def rolloutExcludedResponse (av : String) : UpdateInfo :=
  { isAvailable := false, isMandatory := false, appVersion := av }

/-- Lookup in diffPackageMap (a JavaScript object keyed by package hash). -/
def lookupDiff (m : List (String × DiffInfo)) (h : String) : Option DiffInfo :=
  (m.find? (fun e => e.fst == h)).map (fun e => e.snd)

/-- Response construction of updateCheck.ts lines 94-201, applied to the
result of the backwards walk.  gt abstracts compare(x, y, gt-mode) of the
compare-versions library. -/
def resolveResponse (sat gt : String → String → Bool) (q : UpdateCheckQuery)
    (sv : String) (s : ScanState) : UpdateInfo :=
  match s.latestEnabled with
  | none => noUpdateResponse q.appVersion
  | some le =>
    match s.latestSatisfying with
    | none => noUpdateResponse q.appVersion
    | some ls =>
      if strictEqOpt ls.packageHash q.packageHash then
        if gt sv le.appVersion then
          { noUpdateResponse q.appVersion with appVersion := le.appVersion }
        else if !(sat sv le.appVersion) then
          { noUpdateResponse q.appVersion with
              updateAppVersion := some true, appVersion := le.appVersion }
        else noUpdateResponse q.appVersion
      else
        let dl :=
          match q.packageHash with
          | some h =>
            if h == "" then (ls.blobUrl, ls.size)
            else
              match lookupDiff ls.diffPackageMap h with
              | some d => (d.url, d.size)
              | none => (ls.blobUrl, ls.size)
          | none => (ls.blobUrl, ls.size)
        let avail : UpdateInfo :=
          { isAvailable := true, isMandatory := s.makeMandatory || ls.isMandatory,
            appVersion := q.appVersion, packageHash := some ls.packageHash,
            label := some ls.label, packageSize := some dl.snd,
            description := some ls.description, downloadURL := some dl.fst }
        match ls.rollout with
        | some r =>
          if r < 100 then
            if !optTruthy q.clientUniqueId then rolloutExcludedResponse q.appVersion
            else if !(rolloutStrategy (q.clientUniqueId.getD "") r ls.packageHash) then
              rolloutExcludedResponse q.appVersion
            else avail
          else avail
        | none => avail

/-- updateCheckHandler from handlers/updateCheck.ts, with the storage reads
replaced by the package history of the resolved deployment. -/
def updateCheckHandler (sat gt : String → String → Bool)
    (q : UpdateCheckQuery) (history : List Package) : UpdateInfo :=
  let sv := normalizeVersion q.appVersion
  if history.isEmpty then noUpdateResponse q.appVersion
  else resolveResponse sat gt q sv (scanGo sat q sv history.reverse {})

/-! ## utils/metrics.ts -/

abbrev MetricKey := String × String × String

structure MetricsState where
  counts : List (MetricKey × Int) := []
  clientLabels : List ((String × String) × String) := []
deriving DecidableEq

def findCount : List (MetricKey × Int) → MetricKey → Option Int
  | [], _ => none
  | e :: t, k => if e.fst = k then some e.snd else findCount t k

/-- Value of a metrics counter (absent rows count as zero). -/
def getCount (s : MetricsState) (k : MetricKey) : Int :=
  (findCount s.counts k).getD 0

/-- INSERT count 1 ON CONFLICT DO UPDATE count = count + 1
(MetricsManager.increment). -/
def bumpCounts : List (MetricKey × Int) → MetricKey → List (MetricKey × Int)
  | [], k => [(k, 1)]
  | e :: t, k => if e.fst = k then (e.fst, e.snd + 1) :: t else e :: bumpCounts t k

def increment (s : MetricsState) (deploymentKey label ty : String) : MetricsState :=
  { s with counts := bumpCounts s.counts (deploymentKey, label, ty) }

/-- UPDATE metrics SET count = count - 1 WHERE key matches AND count > 0
(MetricsManager.recordDeployment lines 126-130). -/
def decrementActive (counts : List (MetricKey × Int)) (k : MetricKey) :
    List (MetricKey × Int) :=
  counts.map (fun e => if e.fst = k ∧ 0 < e.snd then (e.fst, e.snd - 1) else e)

def findLabel : List ((String × String) × String) → (String × String) → Option String
  | [], _ => none
  | e :: t, k => if e.fst = k then some e.snd else findLabel t k

/-- INSERT clientLabels ON CONFLICT (clientId, deploymentId) DO UPDATE SET
label. -/
def upsertClientLabel : List ((String × String) × String) → (String × String) → String →
    List ((String × String) × String)
  | [], k, v => [(k, v)]
  | e :: t, k, v => if e.fst = k then (e.fst, v) :: t else e :: upsertClientLabel t k v

/-- ClientLabel of a client on a deployment (keyed clientId, deploymentKey). -/
def getClientLabel (s : MetricsState) (deploymentKey clientId : String) : Option String :=
  findLabel s.clientLabels (clientId, deploymentKey)

/-- recordDeployment before its final increment of the active counter: the
guarded decrement of the previous active counter followed by the ClientLabel
upsert (metrics.ts lines 119-149). -/
def recordDeploymentPre (s : MetricsState) (deploymentKey label clientId : String)
    (previousDeploymentKey previousLabel : Option String) : MetricsState :=
  let s1 :=
    if optTruthy previousDeploymentKey && optTruthy previousLabel then
      { s with counts :=
          decrementActive s.counts (previousDeploymentKey.getD "", previousLabel.getD "", "active") }
    else s
  { s1 with clientLabels := upsertClientLabel s1.clientLabels (clientId, deploymentKey) label }

/-- MetricsManager.recordDeployment (metrics.ts lines 112-151). -/
def recordDeployment (s : MetricsState) (deploymentKey label clientId : String)
    (previousDeploymentKey previousLabel : Option String) : MetricsState :=
  increment (recordDeploymentPre s deploymentKey label clientId previousDeploymentKey previousLabel)
    deploymentKey label "active"

/-- MetricsManager.recordDeploymentStatus (metrics.ts lines 77-110). -/
def recordDeploymentStatus (s : MetricsState) (deploymentKey label status clientId : String) :
    MetricsState :=
  let ty := if status == "DeploymentSucceeded" then "deployment_succeeded" else "deployment_failed"
  let s1 := increment s deploymentKey label ty
  if status == "DeploymentSucceeded" then
    let s2 := { s1 with clientLabels := upsertClientLabel s1.clientLabels (clientId, deploymentKey) label }
    increment s2 deploymentKey label "active"
  else s1

/-- MetricsManager.recordDownload. -/
def recordDownload (s : MetricsState) (deploymentKey label : String) : MetricsState :=
  increment s deploymentKey label "downloaded"

/-! ## routes/acquisition.ts deploymentReport route -/

/-- String.prototype.trim: strip leading and trailing whitespace. -/
def trimString (s : String) : String :=
  String.mk (((s.data.dropWhile Char.isWhitespace).reverse.dropWhile Char.isWhitespace).reverse)

structure DeploymentReportBody where
  deploymentKey : String
  clientUniqueId : String
  appVersion : String
  label : Option String := none
  status : Option String := none
  previousDeploymentKey : Option String := none
  previousLabelOrAppVersion : Option String := none
deriving DecidableEq

/-- The deploymentReport route handler (acquisition.ts lines 159-182): with a
status it records a deployment status under label ?? empty string, otherwise
it records a deployment under label or-else appVersion. -/
def deploymentReportHandler (s : MetricsState) (b : DeploymentReportBody) : MetricsState :=
  if optTruthy b.status then
    recordDeploymentStatus s (trimString b.deploymentKey) (b.label.getD "") (b.status.getD "")
      b.clientUniqueId
  else
    recordDeployment s (trimString b.deploymentKey)
      (if optTruthy b.label then b.label.getD "" else b.appVersion)
      b.clientUniqueId (b.previousDeploymentKey.map trimString) b.previousLabelOrAppVersion

/-! ## storage/blob.ts and storage/d1.ts commitPackage -/

/-- The object store, as a map from key to content. -/
abbrev BlobStore := List (String × String)

def storeGet : BlobStore → String → Option String
  | [], _ => none
  | e :: t, k => if e.fst = k then some e.snd else storeGet t k

def storePut : BlobStore → String → String → BlobStore
  | [], k, v => [(k, v)]
  | e :: t, k, v => if e.fst = k then (e.fst, v) :: t else e :: storePut t k v

def storeDelete (st : BlobStore) (k : String) : BlobStore :=
  st.filter (fun e => !(e.fst = k : Bool))

inductive StorageErr where
  | notFound
  | connectionFailed
deriving DecidableEq

/-- JavaScript split on a single-character separator. -/
def splitOnChar (c : Char) : List Char → List (List Char)
  | [] => [[]]
  | x :: xs =>
    match splitOnChar c xs with
    | [] => [[]]
    | h :: t => if x = c then [] :: h :: t else (x :: h) :: t

/-- Source-path parsing in moveBlob (blob.ts lines 97-100): when the source
contains a question mark, keep the part before it and take the last
slash-separated segment. -/
def parseSourcePath (sourcePath : String) : String :=
  if sourcePath.data.contains '?' then
    String.mk ((splitOnChar '/' ((splitOnChar '?' sourcePath.data).headD [])).getLast?.getD [])
  else sourcePath

/-- The presigned URL produced by getBlobUrl for a stored path.  The
signature parameters are abstracted; the claims depend only on the shape
host-slash-path-question-mark-query. -/
def blobUrlOf (path : String) : String :=
  "https://bucket.acct.r2.cloudflarestorage.com/" ++ path ++ "?X-Amz-Expires=3600"

/-- getBlobUrl (blob.ts lines 45-81): head the path, NotFound when absent,
otherwise a presigned URL. -/
def getBlobUrlM (st : BlobStore) (path : String) : Except StorageErr String :=
  match storeGet st path with
  | none => Except.error StorageErr.notFound
  | some _ => Except.ok (blobUrlOf path)

/-- moveBlob (blob.ts lines 95-127): parse the source key, read it, put the
content at the destination key, delete the original source string, and sign
the destination.  Every failure inside the try, including the NotFound on a
missing source, is rethrown by the catch as ConnectionFailed. -/
def moveBlob (st : BlobStore) (sourcePath destinationPath : String) :
    Except StorageErr (BlobStore × String) :=
  let actualSourcePath := parseSourcePath sourcePath
  match storeGet st actualSourcePath with
  | none => Except.error StorageErr.connectionFailed
  | some content =>
    let st1 := storePut st destinationPath content
    let st2 := storeDelete st1 sourcePath
    match getBlobUrlM st2 destinationPath with
    | Except.error _ => Except.error StorageErr.connectionFailed
    | Except.ok url => Except.ok (st2, url)

/-- A package row of the packages table, reduced to the columns the label
assignment reads. -/
structure PackageRow where
  label : String
  deletedAt : Option Int := none
deriving DecidableEq

/-- Label assigned by commitPackage (d1.ts lines 713-721): the rows counted
are all rows of the deployment; the query has no filter on deletedAt. -/
def commitLabel (rows : List PackageRow) : String :=
  "v" ++ toString (rows.length + 1)

/-- Modelled from the wording of the claim (spec P1): the label counts only
the non-deleted packages of the deployment. -/
def specLabelOfNonDeleted (rows : List PackageRow) : String :=
  "v" ++ toString (rows.countP (fun r => r.deletedAt.isNone) + 1)

/-- commitPackage (d1.ts lines 707-768): count rows for the label, build the
destination blob paths, move the bundle (and the manifest when present), then
return the inserted row.  The database insert is represented by the returned
Package; rows is the current content of the packages table for the
deployment. -/
def commitPackage (appId deploymentId : String) (rows : List PackageRow)
    (pkg : Package) (newId : String) (st : BlobStore) :
    Except StorageErr (Package × BlobStore × String) :=
  let label := commitLabel rows
  let blobPath := "apps/" ++ appId ++ "/deployments/" ++ deploymentId ++ "/" ++ newId ++ ".zip"
  match moveBlob st pkg.blobUrl blobPath with
  | Except.error e => Except.error e
  | Except.ok (st1, blobUrl) =>
    if pkg.manifestBlobUrl == "" then
      Except.ok ({ pkg with label := label, blobUrl := blobUrl, manifestBlobUrl := "" }, st1, blobPath)
    else
      let manifestBlobPath :=
        "apps/" ++ appId ++ "/deployments/" ++ deploymentId ++ "/" ++ newId ++ "-manifest.json"
      match moveBlob st1 pkg.manifestBlobUrl manifestBlobPath with
      | Except.error e => Except.error e
      | Except.ok (st2, manifestUrl) =>
        Except.ok ({ pkg with label := label, blobUrl := blobUrl, manifestBlobUrl := manifestUrl },
          st2, blobPath)

/-! ## part_010 route handlers: promote, rollback, release update -/

/-- The promoted package built by the promote handler (part_010 lines
1572-1584): metadata spread from the source package of the source deployment,
with optional overrides; rollout is the override or null; releaseMethod
Promote; originalLabel and originalDeployment recorded. -/
def promotePackage (sourcePkg : Package) (sourceDeploymentName : String)
    (ovIsDisabled ovIsMandatory : Option Bool) (ovDescription : Option String)
    (ovRollout : Option Int) (now : Int) : Package :=
  { sourcePkg with
      isDisabled := ovIsDisabled.getD sourcePkg.isDisabled,
      isMandatory := ovIsMandatory.getD sourcePkg.isMandatory,
      description := ovDescription.getD sourcePkg.description,
      rollout := ovRollout,
      uploadTime := now,
      releaseMethod := "Promote",
      originalLabel := some sourcePkg.label,
      originalDeployment := some sourceDeploymentName }

inductive RollbackError where
  | notFound : String → RollbackError
  | conflict : String → RollbackError
deriving DecidableEq

/-- history.at(-2): the second-most-recent entry, undefined when the history
has fewer than two entries. -/
def listAtMinus2 (l : List Package) : Option Package :=
  if l.length < 2 then none else l.get? (l.length - 2)

/-- Destination-package resolution of the rollback handler (part_010 lines
1635-1659); src is the current (latest) release. -/
def rollbackDestination (history : List Package) (src : Package)
    (targetRelease : Option String) : Except RollbackError Package :=
  match targetRelease with
  | none =>
    match listAtMinus2 history with
    | none => Except.error (RollbackError.notFound
        "Cannot perform rollback because there are no prior releases to rollback to")
    | some d => Except.ok d
  | some t =>
    if t == src.label then
      Except.error (RollbackError.conflict "target release is already the latest release")
    else
      match history.find? (fun p => p.label == t) with
      | none => Except.error (RollbackError.notFound
          "target release could not be found in the deployment history")
      | some d => Except.ok d

/-- The rollback handler (part_010 lines 1600-1695), up to the commit: returns
the package row to insert, or the error thrown before any row is created. -/
def rollbackRelease (history : List Package) (targetRelease : Option String)
    (now : Int) : Except RollbackError Package :=
  if history.isEmpty then
    Except.error (RollbackError.notFound
      "Cannot perform rollback because there are no releases on this deployment")
  else
    match history.getLast? with
    | none => Except.error (RollbackError.notFound
        "Cannot perform rollback because there are no releases on this deployment")
    | some src =>
      match rollbackDestination history src targetRelease with
      | Except.error e => Except.error e
      | Except.ok dest =>
        if !(src.appVersion == dest.appVersion) then
          Except.error (RollbackError.conflict "Cannot perform rollback to a different app version")
        else
          Except.ok
            { label := "", appVersion := dest.appVersion, blobUrl := dest.blobUrl,
              description := dest.description, diffPackageMap := dest.diffPackageMap,
              isDisabled := dest.isDisabled, isMandatory := dest.isMandatory,
              manifestBlobUrl := dest.manifestBlobUrl, packageHash := dest.packageHash,
              size := dest.size, uploadTime := now, releaseMethod := "Rollback",
              originalLabel := some dest.label, originalDeployment := none, rollout := none }

structure PatchInfo where
  label : Option String := none
  appVersion : Option String := none
  description : Option String := none
  isDisabled : Option Bool := none
deriving DecidableEq

/-- Field application of the release update handler (part_010 lines
1510-1522): each field is applied only when its value is truthy. -/
def applyReleasePatch (release : Package) (p : PatchInfo) : Package :=
  let r1 := if optTruthy p.appVersion then { release with appVersion := p.appVersion.getD "" } else release
  let r2 := if optTruthy p.description then { r1 with description := p.description.getD "" } else r1
  if boolTruthy p.isDisabled then { r2 with isDisabled := true } else r2

/-- The release update handler (part_010 lines 1471-1525): resolve the
release by label or take the latest, then apply the truthy patch fields.
Returns none for the 404 branch. -/
def updateReleaseHandler (history : List Package) (p : PatchInfo) : Option Package :=
  let release :=
    if optTruthy p.label then history.find? (fun r => r.label == p.label.getD "")
    else history.getLast?
  release.map (fun r => applyReleasePatch r p)

/-! ## Sample values used by the concrete instantiations below -/

/-- A satisfies function that accepts every range (stand-in for the external
compare-versions library in concrete instantiations). -/
def satAlways : String → String → Bool := fun _ _ => true

/-- A satisfies function that rejects every range. -/
def satNever : String → String → Bool := fun _ _ => false

/-- A strict-greater comparison that always answers false. -/
def gtNever : String → String → Bool := fun _ _ => false

def samplePkg1 : Package :=
  { label := "v1", appVersion := "1.0.0", packageHash := "H1", isDisabled := false,
    isMandatory := false, rollout := none, size := 5, blobUrl := "url1", description := "d1" }

def samplePkgR0 : Package :=
  { label := "v1", appVersion := "1.0.0", packageHash := "H1", isDisabled := false,
    isMandatory := false, rollout := some 0, size := 5, blobUrl := "url1", description := "d1" }

def samplePkg100 : Package :=
  { label := "v2", appVersion := "1.0.0", packageHash := "H2", isDisabled := false,
    isMandatory := false, rollout := some 100, size := 6, blobUrl := "url2", description := "d2" }

def samplePkgV2 : Package :=
  { label := "v2", appVersion := "2.0.0", packageHash := "H2", isDisabled := false,
    isMandatory := false, rollout := none, size := 6, blobUrl := "url2", description := "d2" }

def samplePromoteSource : Package :=
  { label := "v1", appVersion := "1.0.0", packageHash := "H1", isDisabled := false,
    isMandatory := false, rollout := none, size := 10,
    blobUrl := blobUrlOf "apps/app1/deployments/dep1/p1.zip",
    manifestBlobUrl := "", description := "first", diffPackageMap := [] }

def sampleQuery1 : UpdateCheckQuery :=
  { appVersion := "1.0.0", packageHash := some "H1" }

def sampleQuery2 : UpdateCheckQuery :=
  { appVersion := "1.0.0", clientUniqueId := some "c1" }

def samplePatch : PatchInfo := { isDisabled := some false, description := some "" }

def sampleReport : DeploymentReportBody :=
  { deploymentKey := "dk1", clientUniqueId := "c1", appVersion := "1.2.3" }

/-! ## Arithmetic of the 32-bit wrap -/

lemma toInt32_modEq (x : Int) : Int.ModEq 4294967296 (toInt32 x) x := by
  have h1 : Int.ModEq 4294967296 ((x + 2147483648) % 4294967296) (x + 2147483648) := by
    unfold Int.ModEq
    exact Int.emod_emod_of_dvd _ dvd_rfl
  have h2 := h1.sub_right (2147483648 : Int)
  simpa [toInt32] using h2

lemma toInt32_lb (x : Int) : -2147483648 ≤ toInt32 x := by
  have h := Int.emod_nonneg (x + 2147483648) (by norm_num : (4294967296 : Int) ≠ 0)
  unfold toInt32
  omega

lemma toInt32_ub (x : Int) : toInt32 x < 2147483648 := by
  have h := Int.emod_lt_of_pos (x + 2147483648) (by norm_num : (0 : Int) < 4294967296)
  unfold toInt32
  omega

lemma toInt32_eq_self (x : Int) (h1 : -2147483648 ≤ x) (h2 : x < 2147483648) :
    toInt32 x = x := by
  unfold toInt32
  rw [Int.emod_eq_of_lt (by omega) (by omega)]
  omega

lemma toInt32_congr {x y : Int} (h : Int.ModEq 4294967296 x y) : toInt32 x = toInt32 y := by
  have h2 : (x + 2147483648) % 4294967296 = (y + 2147483648) % 4294967296 := h.add_right _
  unfold toInt32
  omega

lemma toInt32_eq_of_modEq {x y : Int} (h : Int.ModEq 4294967296 x y)
    (h1 : -2147483648 ≤ y) (h2 : y < 2147483648) : toInt32 x = y := by
  rw [toInt32_congr h, toInt32_eq_self y h1 h2]

lemma jsStep_modEq {h r : Int} (c : Int) (hm : Int.ModEq 4294967296 h r) :
    Int.ModEq 4294967296 (jsStep h c) (refStep r c) := by
  unfold jsStep refStep
  rw [toInt32_congr (hm.mul_left 32)]
  have h2 : Int.ModEq 4294967296 (toInt32 (32 * r) - h + c) (toInt32 (32 * r) - r + c) :=
    (Int.ModEq.sub_left _ hm).add_right _
  exact h2.trans (toInt32_modEq _).symm

lemma foldl_js_ref (l : List Int) : ∀ h r : Int, Int.ModEq 4294967296 h r →
    -2147483648 ≤ r → r < 2147483648 →
    toInt32 (List.foldl jsStep h l) = List.foldl refStep r l := by
  induction l with
  | nil =>
    intro h r hm hl hu
    simpa using toInt32_eq_of_modEq hm hl hu
  | cons c t ih =>
    intro c2 r hm hl hu
    simp only [List.foldl_cons]
    refine ih (jsStep c2 c) (refStep r c) (jsStep_modEq c hm) ?_ ?_
    · exact toInt32_lb _
    · exact toInt32_ub _

/-- C4 (amended): the rollout hash of the source wraps to signed 32 bits only
at the shift, so the accumulated value agrees with the fully wrapped
signed-32-bit Java reference modulo 2 to the 32nd (sign-extending it with
toInt32 gives exactly the reference), and the predicate returns true exactly
when the absolute value of the truncated remainder of the UNwrapped hash by
100 is below the percentage.  The bucket itself is not bit-exact to the
reference bucket (see the counterexample). -/
theorem rolloutStrategy_hash_congruence : ∀ (clientId packageHash : String) (p : Int),
    toInt32 (hashCode (clientId ++ packageHash)) = specRolloutHash (clientId ++ packageHash)
    ∧ (rolloutStrategy clientId p packageHash = true ↔
        ((((hashCode (clientId ++ packageHash)).tmod 100).natAbs : Int)) < p) := by
  intro cid ph p
  constructor
  · unfold hashCode specRolloutHash jsHashList refHashList
    exact foldl_js_ref _ 0 0 (Int.ModEq.refl 0) (by norm_num) (by norm_num)
  · simp [rolloutStrategy]

/-- C4 (counterexample): on clientId aaa, packageHash aaaa and percentage 50
the source predicate answers false while the fully wrapped signed-32-bit
reference answers true; the buckets are 69 versus 27, so the computed bucket
is not bit-exact to the signed-32-bit reference on every input. -/
theorem rolloutStrategy_bucket_cex :
    rolloutStrategy "aaa" 50 "aaaa" = false
    ∧ specRolloutInRollout "aaa" 50 "aaaa" = true
    ∧ ((hashCode "aaaaaaa").tmod 100).natAbs = 69
    ∧ (specRolloutHash "aaaaaaa").natAbs % 100 = 27 := by
  refine ⟨by decide, by decide, by decide, by decide⟩

/-! ## Scan lemmas for the update resolver -/

lemma scanGo_satisfying_persists (sat : String → String → Bool) (q : UpdateCheckQuery)
    (sv : String) : ∀ (l : List Package) (s : ScanState) (x : Package),
    s.latestSatisfying = some x → (scanGo sat q sv l s).latestSatisfying = some x := by
  intro l
  induction l with
  | nil =>
    intro s x hx
    simpa [scanGo] using hx
  | cons p t ih =>
    intro s x hx
    simp only [scanGo]
    split
    · exact ih _ x (by simpa using hx)
    · split
      · split
        · exact ih _ x (by simp [orSome, hx])
        · exact ih _ x (by simpa using hx)
      · split
        · simp [orSome, hx]
        · split
          · simp [orSome, hx]
          · exact ih _ x (by simp [orSome, hx])

lemma scanGo_enabled_isSome (sat : String → String → Bool) (q : UpdateCheckQuery)
    (sv : String) : ∀ (l : List Package) (s : ScanState),
    (s.latestSatisfying.isSome → s.latestEnabled.isSome) →
    ((scanGo sat q sv l s).latestSatisfying.isSome → (scanGo sat q sv l s).latestEnabled.isSome) := by
  intro l
  induction l with
  | nil =>
    intro s hs
    simpa [scanGo] using hs
  | cons p t ih =>
    intro s hs
    simp only [scanGo]
    split
    · exact ih _ (by simpa using hs)
    · split
      · split
        · refine ih _ ?_
          intro _
          simp [orSome]
          cases h : s.latestEnabled <;> simp
        · refine ih _ ?_
          intro h2
          simp at h2 ⊢
          cases h : s.latestEnabled <;> simp [orSome]
      · split
        · intro _
          simp [orSome]
          cases h : s.latestEnabled <;> simp
        · split
          · intro _
            simp [orSome]
            cases h : s.latestEnabled <;> simp
          · refine ih _ ?_
            intro _
            simp [orSome]
            cases h : s.latestEnabled <;> simp

/-- C6: during the backwards scan, a non-disabled entry whose appVersion
range does not satisfy the normalized client version is still admitted into
latestSatisfying when the client version carries a pre-release tag (and the
scan continues), the first admitted entry wins against all later ones, and
without the tag the entry is skipped with latestSatisfying untouched. -/
theorem updateCheck_prerelease_admission :
    ∀ (sat : String → String → Bool) (q : UpdateCheckQuery) (sv : String)
      (p : Package) (rest : List Package) (s : ScanState),
    p.isDisabled = false →
    q.isCompanion = false →
    (p.appVersion == "") = false →
    sat sv p.appVersion = false →
    ( (sv.data.contains '-' = true → s.latestSatisfying = none →
        (scanGo sat q sv (p :: rest) s).latestSatisfying = some p)
    ∧ (sv.data.contains '-' = false →
        scanGo sat q sv (p :: rest) s
          = scanGo sat q sv rest
              { foundRequest := s.foundRequest || matchesRequest q p,
                latestSatisfying := s.latestSatisfying,
                latestEnabled := orSome s.latestEnabled p,
                makeMandatory := s.makeMandatory })
    ∧ (∀ x, s.latestSatisfying = some x →
        (scanGo sat q sv (p :: rest) s).latestSatisfying = some x) ) := by
  intro sat q sv p rest s hdis hcomp happ hsat
  refine ⟨?_, ?_, ?_⟩
  · intro htag hnone
    simp only [scanGo, hdis, hcomp, happ, hsat, htag, hnone, Bool.not_false, Bool.and_self,
      if_true, if_false, Bool.false_eq_true, orSome]
    exact scanGo_satisfying_persists sat q sv rest _ p rfl
  · intro htag
    simp only [scanGo, hdis, hcomp, happ, hsat, htag, Bool.not_false, Bool.and_self,
      if_true, if_false, Bool.false_eq_true]
  · intro x hx
    exact scanGo_satisfying_persists sat q sv (p :: rest) s x hx

theorem updateCheck_prerelease_admission_witness :
    (scanGo satNever sampleQuery1 "1.0.0-beta" [samplePkg1] {}).latestSatisfying
      = some samplePkg1 :=
  (updateCheck_prerelease_admission satNever sampleQuery1 "1.0.0-beta" samplePkg1 [] {}
    (by decide) (by decide) (by decide) (by decide)).1 (by decide) (by decide)

lemma rolloutStrategy_zero (clientId packageHash : String) :
    rolloutStrategy clientId 0 packageHash = false := by
  simp only [rolloutStrategy, decide_eq_false_iff_not]
  exact fun h => absurd h (by exact not_lt.mpr (Int.natCast_nonneg _))

/-- C1: when the client packageHash strictly equals the hash of the resolved
latestSatisfying release, the handler answers isAvailable false with
shouldRunBinaryVersion true; when the normalized client version compares
strictly greater than the latestEnabled appVersion the response appVersion is
the latestEnabled appVersion, and when it merely fails to satisfy it the
response additionally sets updateAppVersion true. -/
theorem updateCheck_client_current :
    ∀ (sat gt : String → String → Bool) (q : UpdateCheckQuery) (history : List Package)
      (ls le : Package),
    (scanGo sat q (normalizeVersion q.appVersion) history.reverse {}).latestSatisfying = some ls →
    (scanGo sat q (normalizeVersion q.appVersion) history.reverse {}).latestEnabled = some le →
    strictEqOpt ls.packageHash q.packageHash = true →
    ( (updateCheckHandler sat gt q history).isAvailable = false
    ∧ (updateCheckHandler sat gt q history).shouldRunBinaryVersion = some true
    ∧ (gt (normalizeVersion q.appVersion) le.appVersion = true →
        (updateCheckHandler sat gt q history).appVersion = le.appVersion
        ∧ (updateCheckHandler sat gt q history).updateAppVersion = none)
    ∧ (gt (normalizeVersion q.appVersion) le.appVersion = false →
       sat (normalizeVersion q.appVersion) le.appVersion = false →
        (updateCheckHandler sat gt q history).updateAppVersion = some true
        ∧ (updateCheckHandler sat gt q history).appVersion = le.appVersion) ) := by
  intro sat gt q history ls le hls hle hhash
  have hne : history.isEmpty = false := by
    cases history with
    | nil => simp [scanGo] at hls
    | cons a t => rfl
  have hh : updateCheckHandler sat gt q history
      = resolveResponse sat gt q (normalizeVersion q.appVersion)
          (scanGo sat q (normalizeVersion q.appVersion) history.reverse {}) := by
    simp [updateCheckHandler, hne]
  rw [hh]
  simp only [resolveResponse, hls, hle, hhash, if_true]
  by_cases hgt : gt (normalizeVersion q.appVersion) le.appVersion = true
  · simp [hgt, noUpdateResponse]
  · simp only [Bool.not_eq_true] at hgt
    by_cases hsat : sat (normalizeVersion q.appVersion) le.appVersion = true
    · simp [hgt, hsat, noUpdateResponse]
    · simp only [Bool.not_eq_true] at hsat
      simp [hgt, hsat, noUpdateResponse]

theorem updateCheck_client_current_witness :
    (updateCheckHandler satAlways gtNever sampleQuery1 [samplePkg1]).isAvailable = false
    ∧ (updateCheckHandler satAlways gtNever sampleQuery1 [samplePkg1]).shouldRunBinaryVersion
        = some true := by
  have h := updateCheck_client_current satAlways gtNever sampleQuery1 [samplePkg1]
    samplePkg1 samplePkg1 (by decide) (by decide) (by decide)
  exact ⟨h.1, h.2.1⟩

/-- C5: with a resolved latestSatisfying release, a rollout of 0 yields
isAvailable false for every client, a rollout below 100 with no
clientUniqueId also yields isAvailable false, and a rollout of 100 or null
excludes nobody: every client that reaches the rollout step (hash differs
from the resolved release) gets isAvailable true. -/
theorem updateCheck_rollout_gate :
    ∀ (sat gt : String → String → Bool) (q : UpdateCheckQuery) (history : List Package)
      (ls : Package),
    (scanGo sat q (normalizeVersion q.appVersion) history.reverse {}).latestSatisfying = some ls →
    ( (ls.rollout = some 0 → (updateCheckHandler sat gt q history).isAvailable = false)
    ∧ (∀ r : Int, ls.rollout = some r → r < 100 → optTruthy q.clientUniqueId = false →
        (updateCheckHandler sat gt q history).isAvailable = false)
    ∧ ((ls.rollout = none ∨ ls.rollout = some 100) →
        strictEqOpt ls.packageHash q.packageHash = false →
        (updateCheckHandler sat gt q history).isAvailable = true) ) := by
  intro sat gt q history ls hls
  have hne : history.isEmpty = false := by
    cases history with
    | nil => simp [scanGo] at hls
    | cons a t => rfl
  obtain ⟨le, hle⟩ : ∃ le, (scanGo sat q (normalizeVersion q.appVersion) history.reverse
      {}).latestEnabled = some le := by
    have h1 := scanGo_enabled_isSome sat q (normalizeVersion q.appVersion) history.reverse {}
      (by simp) (by simp [hls])
    exact Option.isSome_iff_exists.mp h1
  have hh : updateCheckHandler sat gt q history
      = resolveResponse sat gt q (normalizeVersion q.appVersion)
          (scanGo sat q (normalizeVersion q.appVersion) history.reverse {}) := by
    simp [updateCheckHandler, hne]
  rw [hh]
  simp only [resolveResponse, hls, hle]
  refine ⟨?_, ?_, ?_⟩
  · intro hr0
    by_cases hhash : strictEqOpt ls.packageHash q.packageHash = true
    · simp only [hhash, if_true]
      by_cases hgt : gt (normalizeVersion q.appVersion) le.appVersion = true
      · simp [hgt, noUpdateResponse]
      · simp only [Bool.not_eq_true] at hgt
        by_cases hsat : sat (normalizeVersion q.appVersion) le.appVersion = true
        · simp [hgt, hsat, noUpdateResponse]
        · simp only [Bool.not_eq_true] at hsat
          simp [hgt, hsat, noUpdateResponse]
    · simp only [Bool.not_eq_true] at hhash
      simp only [hhash, Bool.false_eq_true, if_false, hr0]
      by_cases hcid : optTruthy q.clientUniqueId = true
      · simp [hcid, rolloutStrategy_zero, rolloutExcludedResponse]
      · simp only [Bool.not_eq_true] at hcid
        simp [hcid, rolloutExcludedResponse]
  · intro r hr hlt hcid
    by_cases hhash : strictEqOpt ls.packageHash q.packageHash = true
    · simp only [hhash, if_true]
      by_cases hgt : gt (normalizeVersion q.appVersion) le.appVersion = true
      · simp [hgt, noUpdateResponse]
      · simp only [Bool.not_eq_true] at hgt
        by_cases hsat : sat (normalizeVersion q.appVersion) le.appVersion = true
        · simp [hgt, hsat, noUpdateResponse]
        · simp only [Bool.not_eq_true] at hsat
          simp [hgt, hsat, noUpdateResponse]
    · simp only [Bool.not_eq_true] at hhash
      simp only [hhash, Bool.false_eq_true, if_false, hr]
      simp [hlt, hcid, rolloutExcludedResponse]
  · intro hro hhash
    simp only [hhash, Bool.false_eq_true, if_false]
    rcases hro with h1 | h1
    · simp [h1]
    · simp [h1]

theorem updateCheck_rollout_gate_witness :
    (updateCheckHandler satAlways gtNever sampleQuery2 [samplePkgR0]).isAvailable = false
    ∧ (updateCheckHandler satAlways gtNever sampleQuery2 [samplePkg100]).isAvailable = true := by
  constructor
  · exact (updateCheck_rollout_gate satAlways gtNever sampleQuery2 [samplePkgR0] samplePkgR0
      (by decide)).1 rfl
  · exact (updateCheck_rollout_gate satAlways gtNever sampleQuery2 [samplePkg100] samplePkg100
      (by decide)).2.2 (Or.inr rfl) (by decide)

/-- C7: a rollback whose resolved target release carries an appVersion
different from the current release fails with the Conflict error (mapped to
HTTP 409) before any package row is created, and with the target label
omitted the resolved target is the second-most-recent release of the
deployment history. -/
theorem rollback_cross_version_conflict :
    ∀ (history : List Package) (target : Option String) (now : Int) (src dest : Package),
    history.getLast? = some src →
    rollbackDestination history src target = Except.ok dest →
    ( ((src.appVersion == dest.appVersion) = false →
        rollbackRelease history target now
          = Except.error
              (RollbackError.conflict "Cannot perform rollback to a different app version"))
    ∧ (target = none → listAtMinus2 history = some dest) ) := by
  intro history target now src dest hsrc hdest
  have hne : history.isEmpty = false := by
    cases history with
    | nil => simp at hsrc
    | cons a t => rfl
  constructor
  · intro hver
    simp only [rollbackRelease, hne, Bool.false_eq_true, if_false, hsrc, hdest, hver,
      Bool.not_false, if_true]
  · intro htgt
    subst htgt
    simp only [rollbackDestination] at hdest
    cases h : listAtMinus2 history with
    | none => simp [h] at hdest
    | some d =>
      simp only [h] at hdest
      cases hdest
      rfl

theorem rollback_cross_version_conflict_witness :
    rollbackRelease [samplePkg1, samplePkgV2] none 50
      = Except.error (RollbackError.conflict "Cannot perform rollback to a different app version")
    ∧ listAtMinus2 [samplePkg1, samplePkgV2] = some samplePkg1 := by
  have h := rollback_cross_version_conflict [samplePkg1, samplePkgV2] none 50
    samplePkgV2 samplePkg1 (by rfl) (by rfl)
  exact ⟨h.1 (by decide), h.2 rfl⟩

/-- C9: the release update handler applies a patch field only when truthy:
isDisabled false and an empty description leave the stored fields unchanged,
a disabled release stays disabled whatever the patch, and isMandatory and
rollout are never modified by this endpoint. -/
theorem updateRelease_truthy_patch :
    ∀ (history : List Package) (p : PatchInfo) (rel : Package),
    (if optTruthy p.label then history.find? (fun r => r.label == p.label.getD "")
     else history.getLast?) = some rel →
    ( updateReleaseHandler history p = some (applyReleasePatch rel p)
    ∧ (p.isDisabled = some false → (applyReleasePatch rel p).isDisabled = rel.isDisabled)
    ∧ (p.description = some "" → (applyReleasePatch rel p).description = rel.description)
    ∧ (rel.isDisabled = true → (applyReleasePatch rel p).isDisabled = true)
    ∧ (applyReleasePatch rel p).isMandatory = rel.isMandatory
    ∧ (applyReleasePatch rel p).rollout = rel.rollout ) := by
  intro history p rel hrel
  refine ⟨?_, ?_, ?_, ?_, ?_, ?_⟩
  · simp only [updateReleaseHandler, hrel]
    rfl
  · intro hd
    simp [applyReleasePatch, hd, boolTruthy]
    split <;> split <;> rfl
  · intro hd
    simp only [applyReleasePatch, hd, optTruthy, beq_self_eq_true, Bool.not_true,
      Bool.false_eq_true, if_false]
    split <;> split <;> rfl
  · intro hd
    simp only [applyReleasePatch]
    split <;> split <;> split <;> simp [hd]
  · simp only [applyReleasePatch]
    split <;> split <;> split <;> rfl
  · simp only [applyReleasePatch]
    split <;> split <;> split <;> rfl

theorem updateRelease_truthy_patch_witness :
    updateReleaseHandler [{ samplePkg1 with isDisabled := true }] samplePatch
      = some (applyReleasePatch { samplePkg1 with isDisabled := true } samplePatch)
    ∧ (applyReleasePatch { samplePkg1 with isDisabled := true } samplePatch).isDisabled = true := by
  have h := updateRelease_truthy_patch [{ samplePkg1 with isDisabled := true }] samplePatch
    { samplePkg1 with isDisabled := true } (by decide)
  exact ⟨h.1, h.2.2.2.1 rfl⟩

/-! ## Metrics lemmas -/

lemma findCount_bump_self (l : List (MetricKey × Int)) (k : MetricKey) :
    findCount (bumpCounts l k) k = some ((findCount l k).getD 0 + 1) := by
  induction l with
  | nil => simp [bumpCounts, findCount]
  | cons e t ih =>
    by_cases h : e.fst = k
    · simp [bumpCounts, findCount, h]
    · simp [bumpCounts, findCount, h, ih]

lemma findCount_bump_ne (l : List (MetricKey × Int)) (k k' : MetricKey) (h : k' ≠ k) :
    findCount (bumpCounts l k) k' = findCount l k' := by
  have h2 : ¬(k = k') := fun hk => h hk.symm
  induction l with
  | nil => simp [bumpCounts, findCount, h2]
  | cons e t ih =>
    by_cases he : e.fst = k
    · simp [bumpCounts, findCount, he, h2]
    · simp [bumpCounts, findCount, he, ih]

lemma getCount_increment_self (s : MetricsState) (dk label ty : String) :
    getCount (increment s dk label ty) (dk, label, ty) = getCount s (dk, label, ty) + 1 := by
  simp [getCount, increment, findCount_bump_self]

lemma getCount_increment (s : MetricsState) (dk label ty : String) (k : MetricKey) :
    getCount (increment s dk label ty) k
      = if k = (dk, label, ty) then getCount s k + 1 else getCount s k := by
  by_cases h : k = (dk, label, ty)
  · subst h
    simp [getCount_increment_self]
  · simp [getCount, increment, findCount_bump_ne _ _ _ h, h]

lemma findCount_decrementActive (l : List (MetricKey × Int)) (k k' : MetricKey) :
    findCount (decrementActive l k) k'
      = (findCount l k').map (fun c => if k' = k ∧ 0 < c then c - 1 else c) := by
  induction l with
  | nil => simp [decrementActive, findCount]
  | cons e t ih =>
    obtain ⟨ek, ev⟩ := e
    by_cases h : ek = k'
    · subst h
      by_cases hc : ek = k ∧ 0 < ev
      · simp [decrementActive, findCount, hc]
      · simp [decrementActive, findCount, hc]
    · by_cases hc : ek = k ∧ 0 < ev
      · have hk2 : ¬(k = k') := fun he => h (hc.1.trans he)
        simpa [decrementActive, findCount, hc, h, hk2] using ih
      · simpa [decrementActive, findCount, hc, h] using ih

lemma getCount_decrementActive (s : MetricsState) (k k' : MetricKey) :
    getCount { s with counts := decrementActive s.counts k } k'
      = (if k' = k ∧ 0 < getCount s k' then getCount s k' - 1 else getCount s k') := by
  simp only [getCount, findCount_decrementActive]
  cases h : findCount s.counts k' with
  | none => simp
  | some c => simp

lemma findLabel_upsert_self (l : List ((String × String) × String)) (k : String × String)
    (v : String) : findLabel (upsertClientLabel l k v) k = some v := by
  induction l with
  | nil => simp [upsertClientLabel, findLabel]
  | cons e t ih =>
    by_cases h : e.fst = k
    · simp [upsertClientLabel, findLabel, h]
    · simp [upsertClientLabel, findLabel, h, ih]

lemma recordDeploymentPre_counts (s : MetricsState) (dk label cid : String)
    (pk pl : Option String) :
    (recordDeploymentPre s dk label cid pk pl).counts
      = if optTruthy pk && optTruthy pl then
          decrementActive s.counts (pk.getD "", pl.getD "", "active")
        else s.counts := by
  simp only [recordDeploymentPre]
  split <;> rfl

lemma recordDeploymentPre_clientLabels (s : MetricsState) (dk label cid : String)
    (pk pl : Option String) :
    (recordDeploymentPre s dk label cid pk pl).clientLabels
      = upsertClientLabel s.clientLabels (cid, dk) label := by
  simp only [recordDeploymentPre]
  split <;> rfl

/-- C8: recordDeployment keeps every metric counter non-negative, decrements
the previous active counter only when it is strictly positive (never below
zero), sets the ClientLabel of the client to the new label, and increments
the active counter of the current key and label by exactly one. -/
theorem recordDeployment_counters :
    ∀ (s : MetricsState) (dk label cid : String) (pk pl : Option String),
    (∀ k, 0 ≤ getCount s k) →
    ( (∀ k, 0 ≤ getCount (recordDeployment s dk label cid pk pl) k)
    ∧ getClientLabel (recordDeployment s dk label cid pk pl) dk cid = some label
    ∧ getCount (recordDeployment s dk label cid pk pl) (dk, label, "active")
        = getCount (recordDeploymentPre s dk label cid pk pl) (dk, label, "active") + 1
    ∧ (optTruthy pk = true → optTruthy pl = true →
        getCount { s with counts := decrementActive s.counts (pk.getD "", pl.getD "", "active") }
            (pk.getD "", pl.getD "", "active")
          = (if 0 < getCount s (pk.getD "", pl.getD "", "active") then
              getCount s (pk.getD "", pl.getD "", "active") - 1
             else getCount s (pk.getD "", pl.getD "", "active"))) ) := by
  intro s dk label cid pk pl hpos
  have hprepos : ∀ k, 0 ≤ getCount (recordDeploymentPre s dk label cid pk pl) k := by
    intro k
    have hc : getCount (recordDeploymentPre s dk label cid pk pl) k
        = getCount { s with counts := (recordDeploymentPre s dk label cid pk pl).counts } k := rfl
    rw [hc, recordDeploymentPre_counts]
    split
    · have := getCount_decrementActive s (pk.getD "", pl.getD "", "active") k
      rw [this]
      have := hpos k
      split <;> omega
    · exact hpos k
  refine ⟨?_, ?_, ?_, ?_⟩
  · intro k
    have h1 : recordDeployment s dk label cid pk pl
        = increment (recordDeploymentPre s dk label cid pk pl) dk label "active" := rfl
    rw [h1, getCount_increment]
    have := hprepos k
    split <;> omega
  · have h1 : getClientLabel (recordDeployment s dk label cid pk pl) dk cid
        = findLabel (recordDeploymentPre s dk label cid pk pl).clientLabels (cid, dk) := rfl
    rw [h1, recordDeploymentPre_clientLabels]
    exact findLabel_upsert_self _ _ _
  · have h1 : recordDeployment s dk label cid pk pl
        = increment (recordDeploymentPre s dk label cid pk pl) dk label "active" := rfl
    rw [h1, getCount_increment_self]
  · intro hpk hpl
    rw [getCount_decrementActive]
    simp

theorem recordDeployment_counters_witness :
    getClientLabel (recordDeployment ⟨[], []⟩ "dk" "v2" "c1" (some "dkp") (some "v1")) "dk" "c1"
      = some "v2"
    ∧ getCount (recordDeployment ⟨[], []⟩ "dk" "v2" "c1" (some "dkp") (some "v1"))
        ("dk", "v2", "active")
        = getCount (recordDeploymentPre ⟨[], []⟩ "dk" "v2" "c1" (some "dkp") (some "v1"))
            ("dk", "v2", "active") + 1
    ∧ (∀ k, 0 ≤ getCount (recordDeployment ⟨[], []⟩ "dk" "v2" "c1" (some "dkp") (some "v1")) k) := by
  have h := recordDeployment_counters ⟨[], []⟩ "dk" "v2" "c1" (some "dkp") (some "v1")
    (fun k => le_refl 0)
  exact ⟨h.2.1, h.2.2.1, h.1⟩

/-- C10: a deployment report with no status and no label records the
deployment under the appVersion string: the handler call equals
recordDeployment with the appVersion as label, the ClientLabel upsert stores
the appVersion, and the active counter keyed by the appVersion is the one
incremented. -/
theorem deploymentReport_appVersion_label :
    ∀ (s : MetricsState) (b : DeploymentReportBody),
    b.status = none → b.label = none →
    ( deploymentReportHandler s b
        = recordDeployment s (trimString b.deploymentKey) b.appVersion b.clientUniqueId
            (b.previousDeploymentKey.map trimString) b.previousLabelOrAppVersion
    ∧ getClientLabel (deploymentReportHandler s b) (trimString b.deploymentKey) b.clientUniqueId
        = some b.appVersion
    ∧ getCount (deploymentReportHandler s b) (trimString b.deploymentKey, b.appVersion, "active")
        = getCount (recordDeploymentPre s (trimString b.deploymentKey) b.appVersion
            b.clientUniqueId (b.previousDeploymentKey.map trimString) b.previousLabelOrAppVersion)
            (trimString b.deploymentKey, b.appVersion, "active") + 1 ) := by
  intro s b hst hlb
  have h1 : deploymentReportHandler s b
      = recordDeployment s (trimString b.deploymentKey) b.appVersion b.clientUniqueId
          (b.previousDeploymentKey.map trimString) b.previousLabelOrAppVersion := by
    simp [deploymentReportHandler, hst, hlb, optTruthy]
  refine ⟨h1, ?_, ?_⟩
  · rw [h1]
    have h2 : getClientLabel (recordDeployment s (trimString b.deploymentKey) b.appVersion
        b.clientUniqueId (b.previousDeploymentKey.map trimString) b.previousLabelOrAppVersion)
          (trimString b.deploymentKey) b.clientUniqueId
        = findLabel (recordDeploymentPre s (trimString b.deploymentKey) b.appVersion
            b.clientUniqueId (b.previousDeploymentKey.map trimString)
            b.previousLabelOrAppVersion).clientLabels
            (b.clientUniqueId, trimString b.deploymentKey) := rfl
    rw [h2, recordDeploymentPre_clientLabels]
    exact findLabel_upsert_self _ _ _
  · rw [h1]
    exact getCount_increment_self _ _ _ _

theorem deploymentReport_appVersion_label_witness :
    getClientLabel (deploymentReportHandler ⟨[], []⟩ sampleReport) (trimString "dk1") "c1"
      = some "1.2.3" := by
  have h := deploymentReport_appVersion_label ⟨[], []⟩ sampleReport rfl rfl
  exact h.2.1

/-- C3 (counterexample): with one soft-deleted prior row the label computed
by commitPackage is v2, while the label claimed from the non-deleted count is
v1: the count in d1.ts lines 713-721 has no filter on deletedAt, so
soft-deleted packages do count toward the label number. -/
theorem commitPackage_label_counts_deleted_cex :
    commitLabel [{ label := "v1", deletedAt := some 5 }]
      ≠ specLabelOfNonDeleted [{ label := "v1", deletedAt := some 5 }]
    ∧ commitLabel [{ label := "v1", deletedAt := some 5 }] = "v2"
    ∧ specLabelOfNonDeleted [{ label := "v1", deletedAt := some 5 }] = "v1" := by
  refine ⟨by decide, by decide, by decide⟩

/-- C3 (amended): the label assigned by commitPackage is v followed by one
plus the number of ALL prior package rows of the deployment, soft-deleted
rows included; it coincides with the claimed non-deleted count exactly on
histories with no soft-deleted row. -/
theorem commitPackage_label_nondeleted_amended :
    ∀ rows : List PackageRow,
    rows.all (fun r => r.deletedAt.isNone) = true →
    commitLabel rows = specLabelOfNonDeleted rows := by
  intro rows h
  unfold commitLabel specLabelOfNonDeleted
  have hc : rows.countP (fun r => r.deletedAt.isNone) = rows.length := by
    rw [List.countP_eq_length]
    exact fun a ha => (List.all_eq_true.mp h) a ha
  rw [hc]

theorem commitPackage_label_nondeleted_amended_witness :
    ([{ label := "v1", deletedAt := none }] : List PackageRow).all
        (fun r => r.deletedAt.isNone) = true
    ∧ commitLabel [{ label := "v1", deletedAt := none }]
        = specLabelOfNonDeleted [{ label := "v1", deletedAt := none }] :=
  ⟨by decide, commitPackage_label_nondeleted_amended _ (by decide)⟩

/-- C2 (code bug): promoting a release routes its metadata correctly
(releaseMethod Promote, originalLabel and originalDeployment from the source,
packageHash and size copied), but the blob handling contradicts the claim:
commitPackage always calls moveBlob on the source blobUrl, which parses only
the final path segment out of the presigned URL.  With the store keyed by the
full paths commitPackage writes (first scenario) the source is not found and
the promote fails with ConnectionFailed; with a store keyed by bare file
names (second scenario) the promote succeeds but puts the bundle bytes at a
fresh destination key under the destination deployment, so new blob keys are
written either way. -/
theorem promote_blob_write_bug :
    parseSourcePath (blobUrlOf "apps/app1/deployments/dep1/p1.zip") = "p1.zip"
    ∧ commitPackage "app1" "dep2" []
        (promotePackage samplePromoteSource "Staging" none none none none 111) "new1"
        [("apps/app1/deployments/dep1/p1.zip", "bytes1")]
        = Except.error StorageErr.connectionFailed
    ∧ (commitPackage "app1" "dep2" []
        (promotePackage samplePromoteSource "Staging" none none none none 111) "new1"
        [("p1.zip", "bytes1")]).toOption.map
          (fun r => (r.1.releaseMethod, r.1.originalLabel, r.1.originalDeployment,
            r.1.packageHash, r.1.size, r.1.label))
        = some ("Promote", some "v1", some "Staging", "H1", 10, "v1")
    ∧ (commitPackage "app1" "dep2" []
        (promotePackage samplePromoteSource "Staging" none none none none 111) "new1"
        [("p1.zip", "bytes1")]).toOption.map
          (fun r => storeGet r.2.1 "apps/app1/deployments/dep2/new1.zip")
        = some (some "bytes1") := by
  refine ⟨by decide, by rfl, by decide, by decide⟩
